import Mathlib

/-!
Shallow embedding of the EA SBC squad calculator (files `src/SolverHelper.js` and
`src/OptimalCombinations.js`) and verification of its specification claims.

Modelling conventions:
* JS numbers are modelled as `ℚ` (all quantities the solver manipulates are small
  integers or ratios of such, far from any double-precision rounding boundary).
* A JS object used as a map with numeric keys (`priceByRating`) is modelled as a total
  function `ℚ → ℚ` with the absent-key default `0` built in, matching `obj[k] || 0`.
* A JS object used as a counter (`countRatings`) is modelled as `ℚ → ℕ`.
* `Array.prototype.sort` (stable since ES2019) with a consistent comparator is modelled
  by `List.insertionSort`, Mathlib's stable insertion sort, applied to the total
  preorder induced by the comparator.
* Generators are modelled as the (finite) list of values they yield, in yield order.
* `Object.entries`/`Object.keys` on objects whose keys are canonical numeric strings
  enumerate integer-like keys in ascending numeric order, then remaining keys in
  insertion order; `jsObjectKeys` reproduces this for the nonnegative numeric keys
  that occur here.
-/

set_option maxRecDepth 100000

namespace SBC

/-- JS `Math.round`: round half toward positive infinity, `⌊x + 1/2⌋`. -/
def jsRound (x : ℚ) : ℤ := ⌊x + 1/2⌋

/-- JS number rendering used inside template strings; matches JS `ToString` on
integer-valued numbers (the only case the verified claims exercise). -/
def numToString (q : ℚ) : String :=
  if q.den = 1 then toString q.num else toString q

/-! ### SolverHelper.js -/

/-- `SolverHelper.getRating` (SolverHelper.js lines 42-62): pad with zeros to 11
entries, `sum`, `avg = sum / 11`, correction factor for members strictly above the
average, `Math.round(sum + correction)`, then `Math.floor(rounded / 11)`. -/
def getRating (ratings : List ℚ) : ℤ :=
  if ratings.isEmpty then 0
  else
    let paddedRatings := ratings ++ List.replicate (11 - ratings.length) 0
    let sum := paddedRatings.foldl (· + ·) 0
    let avg := sum / 11
    let correctionFactor :=
      paddedRatings.foldl (fun acc curr => if curr > avg then acc + (curr - avg) else acc) 0
    let sumWithCorrection := sum + correctionFactor
    let rounded := jsRound sumWithCorrection
    ⌊(rounded : ℚ) / 11⌋

/-- `SolverHelper.getPrice` (lines 70-75): `reduce((acc, curr) => acc + (priceByRating[curr] || 0), 0)`. -/
def getPrice (ratings : List ℚ) (priceByRating : ℚ → ℚ) : ℚ :=
  ratings.foldl (fun acc curr => acc + priceByRating curr) 0

/-- `SolverHelper.countRatings` (lines 181-186) as a total lookup with default 0. -/
def countRatings (ratings : List ℚ) : ℚ → ℕ :=
  fun r => ratings.count r

/-- `SolverHelper.prependNTimes` (lines 113-118). -/
def prependNTimes {α : Type} (a : α) (xss : List (List α)) (n : ℕ) : List (List α) :=
  xss.map (fun xs => List.replicate n a ++ xs)

/-- Iterations executed by the JS loop `for (let i = 0; i <= n; i++)` for a numeric
bound `n`: none when `n < 0`, otherwise `i = 0, …, ⌊n⌋`. -/
def iterCount (n : ℚ) : ℕ := if n < 0 then 0 else ⌊n⌋.toNat + 1

/-- `SolverHelper.multisubsetsImpl` (lines 93-104), with the size as a JS number:
`n === 0` yields `[[]]`; otherwise an empty set yields nothing; otherwise include the
head `i = 0 … n` times and recurse on the tail with size `n - i`. -/
def multisubsetsImpl {α : Type} : List α → ℚ → List (List α)
  | [], n => if n = 0 then [[]] else []
  | x :: rest, n =>
    if n = 0 then [[]]
    else (List.range (iterCount n)).flatMap
      (fun i => prependNTimes x (multisubsetsImpl rest (n - (i : ℚ))) i)

/-- `SolverHelper.getMultisubsets` (lines 83-85) delegates to `multisubsetsImpl`. -/
def getMultisubsets {α : Type} (set : List α) (n : ℚ) : List (List α) :=
  multisubsetsImpl set n

/-- `multisubsetsImpl` specialised to natural-number sizes (the only sizes the claims
exercise); `multisubsetsImpl_natCast` proves it agrees with the embedding. -/
def multisubsetsN {α : Type} : List α → ℕ → List (List α)
  | [], n => if n = 0 then [[]] else []
  | x :: rest, n =>
    if n = 0 then [[]]
    else (List.range (n + 1)).flatMap
      (fun i => prependNTimes x (multisubsetsN rest (n - i)) i)

/-- Result shape of `SolverHelper.validateInputs`. -/
structure ValidationResult where
  valid : Bool
  errors : List String
deriving DecidableEq

/-- `SolverHelper.validateInputs` (lines 125-165). The `typeof`/`Array.isArray` checks
cannot fire in the typed embedding; every range check is collected in source order. The
final check `existingRatings && squadSize && existingRatings.length > squadSize`
requires `squadSize` truthy, i.e. nonzero. -/
def validateInputs (targetRating : ℚ) (existingRatings availableRatings : List ℚ)
    (squadSize : ℚ) : ValidationResult :=
  let targetErrors :=
    if targetRating < 45 ∨ targetRating > 99 then
      ["Target rating must be a number between 45 and 99"] else []
  let existingErrors := existingRatings.enum.filterMap (fun p =>
    if p.2 < 45 ∨ p.2 > 99 then
      some ("Invalid rating at index " ++ toString p.1 ++ ": " ++ numToString p.2)
    else none)
  let availableErrors := availableRatings.enum.filterMap (fun p =>
    if p.2 < 45 ∨ p.2 > 99 then
      some ("Invalid available rating at index " ++ toString p.1 ++ ": " ++ numToString p.2)
    else none)
  let squadSizeErrors :=
    if squadSize < 1 ∨ squadSize > 23 then
      ["Squad size must be a number between 1 and 23"] else []
  let exceedErrors :=
    if squadSize ≠ 0 ∧ (existingRatings.length : ℚ) > squadSize then
      ["Existing ratings exceed squad size"] else []
  let errors := targetErrors ++ existingErrors ++ availableErrors ++ squadSizeErrors ++ exceedErrors
  { valid := errors.isEmpty, errors := errors }

/-! ### OptimalCombinations.js: the precomputed table -/

/-- One precomputed fill: `(rating, count)` groups in the ascending-numeric-key order
in which `Object.entries` enumerates them. -/
abbrev Combination := List (ℚ × ℕ)

/-- `OPTIMAL_SBC_COMBINATIONS` (OptimalCombinations.js lines 6-123), keyed by target
rating; any key other than the integers 80-92 is absent (`|| []`). -/
def OPTIMAL_SBC_COMBINATIONS (t : ℚ) : List Combination :=
  if t = 80 then
    [[(80, 8), (81, 2), (82, 1)], [(80, 10), (83, 1)], [(80, 9), (82, 2)],
     [(80, 7), (81, 4)], [(79, 10), (84, 1)], [(79, 8), (82, 3)]]
  else if t = 81 then
    [[(81, 8), (82, 3)], [(81, 10), (83, 1)], [(80, 10), (84, 1)],
     [(80, 6), (82, 5)], [(80, 9), (83, 2)], [(79, 10), (85, 1)]]
  else if t = 82 then
    [[(82, 9), (83, 2)], [(82, 10), (84, 1)], [(81, 7), (83, 4)],
     [(81, 10), (85, 1)], [(81, 9), (84, 2)], [(80, 10), (86, 1)]]
  else if t = 83 then
    [[(82, 2), (83, 9)], [(82, 4), (83, 6), (84, 1)], [(82, 10), (85, 1)],
     [(82, 2), (83, 7), (84, 2)], [(82, 10), (86, 1)], [(82, 8), (84, 3)]]
  else if t = 84 then
    [[(84, 11)], [(83, 2), (84, 8), (85, 1)], [(83, 10), (86, 1)],
     [(83, 2), (84, 7), (85, 2)], [(83, 10), (87, 1)], [(83, 8), (85, 3)]]
  else if t = 85 then
    [[(85, 11)], [(84, 2), (85, 8), (86, 1)], [(84, 10), (87, 1)],
     [(84, 2), (85, 7), (86, 2)], [(84, 10), (88, 1)], [(84, 8), (86, 3)]]
  else if t = 86 then
    [[(86, 11)], [(85, 2), (86, 8), (87, 1)], [(85, 10), (88, 1)],
     [(85, 2), (86, 7), (87, 2)], [(85, 10), (89, 1)], [(85, 8), (87, 3)]]
  else if t = 87 then
    [[(87, 11)], [(86, 2), (87, 8), (88, 1)], [(86, 10), (89, 1)],
     [(86, 2), (87, 7), (88, 2)], [(86, 10), (90, 1)], [(86, 8), (88, 3)]]
  else if t = 88 then
    [[(88, 11)], [(87, 2), (88, 8), (89, 1)], [(87, 10), (90, 1)],
     [(87, 2), (88, 7), (89, 2)], [(87, 10), (91, 1)], [(87, 8), (89, 3)]]
  else if t = 89 then
    [[(89, 11)], [(88, 2), (89, 8), (90, 1)], [(88, 10), (91, 1)],
     [(88, 2), (89, 7), (90, 2)], [(88, 10), (92, 1)], [(88, 8), (90, 3)]]
  else if t = 90 then
    [[(90, 11)], [(89, 2), (90, 8), (91, 1)], [(89, 10), (92, 1)],
     [(89, 2), (90, 7), (91, 2)], [(89, 10), (93, 1)], [(89, 8), (91, 3)]]
  else if t = 91 then
    [[(91, 11)], [(90, 2), (91, 8), (92, 1)], [(90, 10), (93, 1)],
     [(90, 2), (91, 7), (92, 2)], [(90, 10), (94, 1)], [(90, 8), (92, 3)]]
  else if t = 92 then
    [[(92, 11)], [(91, 2), (92, 8), (93, 1)], [(91, 10), (94, 1)],
     [(91, 2), (92, 7), (93, 2)], [(91, 10), (95, 1)], [(91, 8), (93, 3)]]
  else []

/-- `getOptimalCombinations` (lines 130-136). -/
def getOptimalCombinations (targetRating : ℚ) : List Combination :=
  if targetRating < 80 ∨ targetRating > 92 then []
  else OPTIMAL_SBC_COMBINATIONS targetRating

/-- `isCombinationPossible` (lines 144-152): every needed count is available. -/
def isCombinationPossible (combination : Combination) (availableCounts : ℚ → ℕ) : Bool :=
  combination.all (fun p => decide (p.2 ≤ availableCounts p.1))

/-- `combinationToArray` (lines 159-167). -/
def combinationToArray (combination : Combination) : List ℚ :=
  combination.flatMap (fun p => List.replicate p.2 p.1)

/-- `calculateCombinationPoints` (lines 174-180). -/
def calculateCombinationPoints (combination : Combination) : ℚ :=
  combination.foldl (fun total p => total + p.1 * (p.2 : ℚ)) 0

/-! ### index.js: solver orchestration -/

/-- A candidate solution record. `isOptimal` is only set by the fast path and
`combinationUsed` only by the exhaustive path; the defaults stand in for the
absent JS fields. -/
structure Solution where
  price : ℚ
  squad : List (ℚ × ℕ)
  actualRating : ℚ
  totalRatingPoints : ℚ
  efficiency : ℚ
  isOptimal : Bool := false
  combinationUsed : List ℚ := []
deriving DecidableEq

/-- Result shape shared by both solver entry points. -/
structure SolveResult where
  solutionsFound : ℕ
  solutions : List Solution
  error : Option String := none
  message : Option String := none
deriving DecidableEq

/-- Comparator of the fast path's final sort: ascending `totalRatingPoints`. -/
def optimalLe (a b : Solution) : Prop :=
  a.totalRatingPoints ≤ b.totalRatingPoints

instance : DecidableRel optimalLe :=
  fun a b => inferInstanceAs (Decidable (a.totalRatingPoints ≤ b.totalRatingPoints))

/-- Comparator of the exhaustive path with `sortByPrice = true`: ascending price,
ties broken by ascending total rating points. -/
def priceLe (a b : Solution) : Prop :=
  a.price < b.price ∨ (a.price = b.price ∧ a.totalRatingPoints ≤ b.totalRatingPoints)

instance : DecidableRel priceLe :=
  fun a b => inferInstanceAs (Decidable (a.price < b.price ∨
    (a.price = b.price ∧ a.totalRatingPoints ≤ b.totalRatingPoints)))

/-- Comparator of the exhaustive path with `sortByPrice = false`: ascending total
rating points, ties broken by ascending price. -/
def pointsLe (a b : Solution) : Prop :=
  a.totalRatingPoints < b.totalRatingPoints ∨
    (a.totalRatingPoints = b.totalRatingPoints ∧ a.price ≤ b.price)

instance : DecidableRel pointsLe :=
  fun a b => inferInstanceAs (Decidable (a.totalRatingPoints < b.totalRatingPoints ∨
    (a.totalRatingPoints = b.totalRatingPoints ∧ a.price ≤ b.price)))

/-- `findOptimalSolutions` (index.js lines 219-271). -/
def findOptimalSolutions (targetRating : ℚ) (availableRatings : List ℚ)
    (priceByRating : ℚ → ℚ) (maxSolutions : ℕ) : SolveResult :=
  let optimalCombinations := getOptimalCombinations targetRating
  if optimalCombinations.isEmpty then
    { solutionsFound := 0, solutions := [],
      message := some ("No optimal combinations available for rating " ++
        numToString targetRating ++ ". Use findSquadSolutions for custom search.") }
  else
    let availableCounts := countRatings availableRatings
    let solutions := (optimalCombinations.take maxSolutions).filterMap (fun combination =>
      if isCombinationPossible combination availableCounts then
        let ratingArray := combinationToArray combination
        let price := getPrice ratingArray priceByRating
        let totalRatingPoints := calculateCombinationPoints combination
        some { price := price
               squad := combination
               actualRating := targetRating
               totalRatingPoints := totalRatingPoints
               efficiency := totalRatingPoints / targetRating
               isOptimal := true }
      else none)
    { solutionsFound := solutions.length,
      solutions := List.insertionSort optimalLe solutions }

/-- `Object.keys` enumeration order for a counter object built from `l` by first
occurrence: integer-like keys ascending, then non-integer keys in insertion order. -/
def jsObjectKeys (l : List ℚ) : List ℚ :=
  let distinct := l.eraseDups
  List.insertionSort (· ≤ ·) (distinct.filter (fun q => q.den = 1)) ++
    distinct.filter (fun q => q.den ≠ 1)

/-- `calculateSquadSolutions` (index.js lines 451-575), the exhaustive path. The
`try`/`catch` wrapper is omitted: every operation of the body is total in the
embedding, so the catch branch is unreachable. -/
def calculateSquadSolutions (targetRating : ℚ) (existingRatings ratingsToTry : List ℚ)
    (priceByRating : ℚ → ℚ) (SQUAD_SIZE : ℚ) (MAX_SOLUTIONS_TO_TAKE : ℕ)
    (sortByPrice : Bool) : SolveResult :=
  if targetRating > 99 ∨ targetRating < 45 then
    { solutionsFound := 0, solutions := [] }
  else
    let remainingSlots := SQUAD_SIZE - (existingRatings.length : ℚ)
    if remainingSlots ≤ 0 then
      let currentRating := getRating existingRatings
      if (currentRating : ℚ) ≥ targetRating then
        { solutionsFound := 1,
          solutions := [{ price := 0
                          squad := []
                          actualRating := (currentRating : ℚ)
                          totalRatingPoints := existingRatings.foldl (· + ·) 0
                          efficiency := 0 }] }
      else
        { solutionsFound := 0, solutions := [] }
    else
      let availableCounts := countRatings ratingsToTry
      let combinations := getMultisubsets ratingsToTry remainingSlots
      let solutions := combinations.filterMap (fun combination =>
        let hasEnoughCards := combination.all
          (fun r => decide (combination.count r ≤ availableCounts r))
        if hasEnoughCards then
          let fullSquad := existingRatings ++ combination
          let rating := getRating fullSquad
          if (rating : ℚ) < targetRating then none
          else
            let squad := (jsObjectKeys combination).map
              (fun r => (r, combination.count r))
            let totalRatingPoints := fullSquad.foldl (· + ·) 0
            let price := getPrice combination priceByRating
            let efficiency := totalRatingPoints / max (rating : ℚ) 1
            some { price := price
                   squad := squad
                   actualRating := (rating : ℚ)
                   totalRatingPoints := totalRatingPoints
                   efficiency := efficiency
                   combinationUsed := combination }
        else none)
      let sorted :=
        if sortByPrice then List.insertionSort priceLe solutions
        else List.insertionSort pointsLe solutions
      let truncated :=
        if 0 < MAX_SOLUTIONS_TO_TAKE then sorted.take MAX_SOLUTIONS_TO_TAKE else sorted
      { solutionsFound := truncated.length, solutions := truncated }

/-- `findSquadSolutions` (index.js lines 287-345): fast-path delegation, then input
validation, then the exhaustive path. -/
def findSquadSolutions (targetRating : ℚ) (existingRatings availableRatings : List ℚ)
    (priceByRating : ℚ → ℚ) (squadSize : ℚ) (maxSolutions : ℕ)
    (sortByPrice useOptimalCombinations : Bool) : SolveResult :=
  let afterFastPath : SolveResult :=
    let validation := validateInputs targetRating existingRatings availableRatings squadSize
    if validation.valid then
      calculateSquadSolutions targetRating existingRatings availableRatings
        priceByRating squadSize maxSolutions sortByPrice
    else
      { error := some (String.intercalate ", " validation.errors),
        solutionsFound := 0, solutions := [] }
  if existingRatings.length = 0 ∧ useOptimalCombinations = true ∧
      80 ≤ targetRating ∧ targetRating ≤ 92 ∧ 50 < availableRatings.length then
    let optimalResult := findOptimalSolutions targetRating availableRatings
      priceByRating maxSolutions
    if 0 < optimalResult.solutionsFound then optimalResult else afterFastPath
  else afterFastPath


/-! ### Concrete inputs used by the claim theorems -/

/-- The all-zero price map (prices are irrelevant to the facts proved with it). -/
def price0 : ℚ → ℚ := fun _ => 0

/-- Inventory of the fast-path acceptance test: 15 copies of 83, 10 of 82, 50 of 81
and 25 of 84. -/
def invC2 : List ℚ :=
  List.replicate 15 83 ++ List.replicate 10 82 ++ List.replicate 50 81 ++ List.replicate 25 84

/-- Price map of the fast-path acceptance test. -/
def priceC2 : ℚ → ℚ := fun r =>
  if r = 81 then 500 else if r = 82 then 800 else if r = 83 then 1000 else
  if r = 84 then 2000 else 0

/-- Inventory with valid entries but no copies of 84: feasible for exactly one
entry of the 83 table. -/
def invC8 : List ℚ := List.replicate 15 83 ++ List.replicate 10 82 ++ List.replicate 50 81

/-! ### C1: the rating formula -/

/-- Reference formula stated by the specification (spec §4.1), written from the
spec's words to be compared with the source-derived `getRating`: pad with zeros to
exactly 11 entries, `sum`, real-valued `average = sum / 11`,
`correction = Σ max(0, v - average)`, round half-up, floor-divide by 11. -/
def referenceRating (members : List ℚ) : ℤ :=
  let padded := members ++ List.replicate (11 - members.length) 0
  let sum := padded.sum
  let average := sum / 11
  let correction := (padded.map (fun v => max 0 (v - average))).sum
  let adjusted : ℤ := ⌊sum + correction + 1/2⌋
  ⌊(adjusted : ℚ) / 11⌋

lemma correction_foldl (avg : ℚ) : ∀ (l : List ℚ) (acc : ℚ),
    l.foldl (fun a c => if c > avg then a + (c - avg) else a) acc
      = acc + (l.map (fun v => max 0 (v - avg))).sum := by
  intro l
  induction l with
  | nil => intro acc; simp
  | cons x xs ih =>
    intro acc
    by_cases h : x > avg
    · rw [List.foldl_cons, if_pos h, ih, List.map_cons, List.sum_cons,
        max_eq_right (by linarith : (0:ℚ) ≤ x - avg)]
      ring
    · rw [List.foldl_cons, if_neg h, ih, List.map_cons, List.sum_cons,
        max_eq_left (by push_neg at h; linarith : x - avg ≤ (0:ℚ))]
      ring

lemma getRating_eq_referenceRating (r : List ℚ) : getRating r = referenceRating r := by
  by_cases hr : r.isEmpty
  · rw [List.isEmpty_iff.mp hr]
    with_unfolding_all decide
  · unfold getRating referenceRating jsRound
    rw [if_neg (by simp [hr])]
    simp only [← List.sum_eq_foldl]
    rw [correction_foldl, zero_add]

/-- C1: for every rating list of length at most 11, `getRating`
(`SolverHelper.getRating`) agrees with the specification's reference formula
(pad to 11 with zeros, sum, real average, above-average correction, round half-up,
floor-divide by 11); the empty input gives 0, the quoted single-member values are
7, 10, 15 and 17, and a full roster of eleven copies of 75 or 85 rates exactly
that value. -/
theorem c1_aggregateRating_formula :
    (∀ r : List ℚ, r.length ≤ 11 → getRating r = referenceRating r) ∧
    getRating [] = 0 ∧
    getRating [45] = 7 ∧ getRating [60] = 10 ∧ getRating [87] = 15 ∧ getRating [99] = 17 ∧
    getRating (List.replicate 11 75) = 75 ∧ getRating (List.replicate 11 85) = 85 := by
  refine ⟨fun r _ => getRating_eq_referenceRating r, ?_, ?_, ?_, ?_, ?_, ?_, ?_⟩ <;>
    with_unfolding_all decide

/-- C1 witness: the formula equivalence applied to a concrete two-member roster. -/
theorem c1_aggregateRating_formula_app :
    getRating [87, 87] = referenceRating [87, 87] :=
  c1_aggregateRating_formula.1 [87, 87] (by decide)

/-! ### C2: the fast-path acceptance test -/

/-- C2 counterexample: with the claimed arguments (and the default
`maxSolutions = 10`, since the claim names no limit) all six table entries are
considered; the sixth, `{82: 8, 84: 3}` with 908 points, is feasible and sorts
first, so the first solution has `totalRatingPoints = 908`, not 910. -/
theorem c2_first_solution_is_908 :
    ((findOptimalSolutions 83 invC2 priceC2 10).solutions.head?.map
      (fun s => (s.actualRating, s.totalRatingPoints))) = some (83, 908) ∧
    (some ((83 : ℚ), (908 : ℚ)) ≠ some ((83 : ℚ), (910 : ℚ))) := by
  constructor
  · with_unfolding_all decide
  · with_unfolding_all decide

/-- C2 amended: with `maxSolutions = 5` (the value the repository's own test
passes), only the first five table entries are considered and the first solution
after the final ascending sort by `totalRatingPoints` has `actualRating = 83` and
`totalRatingPoints = 910`. -/
theorem c2_first_solution_with_max5 :
    ((findOptimalSolutions 83 invC2 priceC2 5).solutions.head?.map
      (fun s => (s.actualRating, s.totalRatingPoints))) = some (83, 910) := by
  with_unfolding_all decide

/-! ### C3: invariants of the precomputed table -/

/-- C3 counterexample: the list for target rating 80 is not sorted ascending by
total rating points: its entries total 884, 883, 884, 884, 874, 878, and the
second (883) is below the first (884). -/
theorem c3_table80_not_sorted :
    ¬ ((getOptimalCombinations 80).Pairwise
        (fun c1 c2 => calculateCombinationPoints c1 ≤ calculateCombinationPoints c2)) := by
  with_unfolding_all decide

lemma OPTIMAL_SBC_COMBINATIONS_counts (t : ℚ) :
    ∀ c ∈ OPTIMAL_SBC_COMBINATIONS t, (c.map (fun p => p.2)).sum = 11 := by
  by_cases h80 : t = 80
  · subst h80; with_unfolding_all decide
  by_cases h81 : t = 81
  · subst h81; with_unfolding_all decide
  by_cases h82 : t = 82
  · subst h82; with_unfolding_all decide
  by_cases h83 : t = 83
  · subst h83; with_unfolding_all decide
  by_cases h84 : t = 84
  · subst h84; with_unfolding_all decide
  by_cases h85 : t = 85
  · subst h85; with_unfolding_all decide
  by_cases h86 : t = 86
  · subst h86; with_unfolding_all decide
  by_cases h87 : t = 87
  · subst h87; with_unfolding_all decide
  by_cases h88 : t = 88
  · subst h88; with_unfolding_all decide
  by_cases h89 : t = 89
  · subst h89; with_unfolding_all decide
  by_cases h90 : t = 90
  · subst h90; with_unfolding_all decide
  by_cases h91 : t = 91
  · subst h91; with_unfolding_all decide
  by_cases h92 : t = 92
  · subst h92; with_unfolding_all decide
  unfold OPTIMAL_SBC_COMBINATIONS
  rw [if_neg h80, if_neg h81, if_neg h82, if_neg h83, if_neg h84, if_neg h85, if_neg h86,
    if_neg h87, if_neg h88, if_neg h89, if_neg h90, if_neg h91, if_neg h92]
  simp

/-- C3 amended: for every target rating in [80, 92] every combination's counts sum
to exactly 11; the lists are, however, not sorted ascending by total rating points
(see the counterexample at 80). -/
theorem c3_counts_sum_eleven (t : ℚ) (_h80 : 80 ≤ t) (_h92 : t ≤ 92) :
    ∀ c ∈ getOptimalCombinations t, (c.map (fun p => p.2)).sum = 11 := by
  intro c hc
  unfold getOptimalCombinations at hc
  by_cases h : t < 80 ∨ t > 92
  · rw [if_pos h] at hc; simp at hc
  · rw [if_neg h] at hc
    exact OPTIMAL_SBC_COMBINATIONS_counts t c hc

/-- C3 witness: the counts invariant applied at target rating 83 to the first
table entry. -/
theorem c3_counts_sum_eleven_app :
    (([((82 : ℚ), 2), (83, 9)] : Combination).map (fun p => p.2)).sum = 11 :=
  c3_counts_sum_eleven 83 (by norm_num) (by norm_num) [((82 : ℚ), 2), (83, 9)]
    (by with_unfolding_all decide)

/-! ### C10: the fast path hard-codes `actualRating` -/

/-- C10: every solution of `findOptimalSolutions` carries `actualRating` equal to
the `targetRating` argument (the rating formula is never consulted); consequently,
for target 80 with one 84 and ten 79s available, the returned solution claims
rating 80 while `getRating` of its expanded 11-member fill is 79. -/
theorem c10_actualRating_is_target :
    (∀ (t : ℚ) (avail : List ℚ) (price : ℚ → ℚ) (maxSolutions : ℕ),
      ∀ s ∈ (findOptimalSolutions t avail price maxSolutions).solutions,
        s.actualRating = t) ∧
    (∃ s ∈ (findOptimalSolutions 80 (84 :: List.replicate 10 79) price0 10).solutions,
      s.actualRating = 80 ∧
      getRating (s.squad.flatMap (fun p => List.replicate p.2 p.1)) = 79 ∧
      ((80 : ℚ) : ℚ) ≠ ((79 : ℤ) : ℚ)) := by
  constructor
  · intro t avail price maxSolutions s hs
    unfold findOptimalSolutions at hs
    by_cases h : (getOptimalCombinations t).isEmpty
    · rw [if_pos h] at hs
      simp at hs
    · rw [if_neg h] at hs
      simp only at hs
      rw [(List.perm_insertionSort optimalLe _).mem_iff, List.mem_filterMap] at hs
      obtain ⟨comb, _, hcomb⟩ := hs
      by_cases hp : isCombinationPossible comb (countRatings avail) = true
      · rw [if_pos hp] at hcomb
        cases hcomb
        rfl
      · rw [if_neg hp] at hcomb
        cases hcomb
  · with_unfolding_all decide

/-- C10 witness: the universal part applied to the concrete solution returned for
target 80 over one 84 and ten 79s. -/
theorem c10_actualRating_is_target_app :
    ({ price := 0, squad := [(79, 10), (84, 1)], actualRating := 80,
       totalRatingPoints := 874, efficiency := 874/80, isOptimal := true } :
        Solution).actualRating = 80 :=
  c10_actualRating_is_target.1 80 (84 :: List.replicate 10 79) price0 10
    { price := 0, squad := [(79, 10), (84, 1)], actualRating := 80,
      totalRatingPoints := 874, efficiency := 874/80, isOptimal := true }
    (by with_unfolding_all decide)

/-! ### C7 and C8: orchestration branches -/

lemma validateInputs_valid_target {t : ℚ} {ex av : List ℚ} {size : ℚ}
    (h : (validateInputs t ex av size).valid = true) : ¬(t < 45 ∨ t > 99) := by
  intro hc
  simp only [validateInputs] at h
  rw [if_pos hc] at h
  simp at h

lemma validateInputs_valid_size {t : ℚ} {ex av : List ℚ} {size : ℚ}
    (h : (validateInputs t ex av size).valid = true) : ¬(size < 1 ∨ size > 23) := by
  intro hc
  simp only [validateInputs] at h
  rw [if_pos hc] at h
  simp at h

/-- C7 counterexample: a full valid roster of eleven 85s meeting target 85 yields
the single zero-cost solution, but its `efficiency` field is 0, not
`totalRatingPoints / max(actualRating, 1) = 935 / 85 = 11` as the claim states. -/
theorem c7_efficiency_is_zero_not_ratio :
    ((findSquadSolutions 85 (List.replicate 11 85) [] price0 11 50 true true).solutions.head?.map
      (fun s => s.efficiency)) = some 0 ∧
    ((findSquadSolutions 85 (List.replicate 11 85) [] price0 11 50 true true).solutions.head?.map
      (fun s => s.totalRatingPoints / max s.actualRating 1)) = some 11 ∧
    ((0 : ℚ) ≠ 11) := by
  refine ⟨?_, ?_, ?_⟩ <;> with_unfolding_all decide

/-- C7 amended: with validation passing and `squadSize - existingRatings.length ≤ 0`,
if the aggregate rating of the existing roster meets the target the result is exactly
one solution with price 0, empty squad, `actualRating = getRating existingRatings`,
`totalRatingPoints` the sum of the existing ratings, and `efficiency = 0` (the code
hard-codes 0 rather than the data model's `totalRatingPoints / max(actualRating, 1)`
ratio); otherwise the result has zero solutions. -/
theorem c7_remaining_nonpositive (t : ℚ) (ex av : List ℚ) (price : ℚ → ℚ) (size : ℚ)
    (maxSolutions : ℕ) (sb uo : Bool)
    (hvalid : (validateInputs t ex av size).valid = true)
    (hfull : size - (ex.length : ℚ) ≤ 0) :
    (t ≤ ((getRating ex : ℤ) : ℚ) →
      findSquadSolutions t ex av price size maxSolutions sb uo =
        { solutionsFound := 1,
          solutions := [{ price := 0, squad := [],
                          actualRating := ((getRating ex : ℤ) : ℚ),
                          totalRatingPoints := ex.foldl (· + ·) 0,
                          efficiency := 0 }] }) ∧
    (((getRating ex : ℤ) : ℚ) < t →
      findSquadSolutions t ex av price size maxSolutions sb uo =
        { solutionsFound := 0, solutions := [] }) := by
  have htarget := validateInputs_valid_target hvalid
  have hsize := validateInputs_valid_size hvalid
  push_neg at htarget hsize
  have hlen : ¬(ex.length = 0) := by
    intro h0
    have h1 : (ex.length : ℚ) = 0 := by rw [h0]; norm_num
    rw [h1] at hfull
    have h2 := hsize.1
    linarith
  have hfast : ¬(ex.length = 0 ∧ uo = true ∧ 80 ≤ t ∧ t ≤ 92 ∧ 50 < av.length) := by
    intro hcond; exact hlen hcond.1
  unfold findSquadSolutions
  simp only []
  rw [if_neg hfast, if_pos hvalid]
  unfold calculateSquadSolutions
  rw [if_neg (show ¬(t > 99 ∨ t < 45) by push_neg; exact ⟨htarget.2, htarget.1⟩)]
  simp only []
  rw [if_pos hfull]
  constructor
  · intro hge
    rw [if_pos (show ((getRating ex : ℤ) : ℚ) ≥ t from hge)]
  · intro hlt
    rw [if_neg (show ¬(((getRating ex : ℤ) : ℚ) ≥ t) from not_le.mpr hlt)]

/-- C7 witness: the full-roster branch applied to eleven 85s against target 85. -/
theorem c7_remaining_nonpositive_app :
    findSquadSolutions 85 (List.replicate 11 85) [] price0 11 50 true true =
      { solutionsFound := 1,
        solutions := [{ price := 0, squad := [],
                        actualRating := ((getRating (List.replicate 11 85) : ℤ) : ℚ),
                        totalRatingPoints := (List.replicate 11 85).foldl (· + ·) 0,
                        efficiency := 0 }] } :=
  (c7_remaining_nonpositive 85 (List.replicate 11 85) [] price0 11 50 true true
    (by with_unfolding_all decide) (by with_unfolding_all decide)).1
    (by with_unfolding_all decide)

/-- C8 counterexample: with a valid target (83), 75 valid available ratings, but an
invalid `squadSize = 0`, the fast path (which runs before validation) finds a
feasible table entry and returns it: the result has no `error` and one solution,
although `validateInputs` rejects the input. -/
theorem c8_fast_path_bypasses_validation :
    (validateInputs 83 [] invC8 0).valid = false ∧
    (findSquadSolutions 83 [] invC8 price0 0 10 true true).error = none ∧
    (findSquadSolutions 83 [] invC8 price0 0 10 true true).solutionsFound = 1 := by
  refine ⟨?_, ?_, ?_⟩ <;> with_unfolding_all decide

/-- C8 amended: for every input that fails a validation check, provided the
fast-path delegation does not return a result (its guard fails, or it finds no
feasible table entry), `findSquadSolutions` returns the collected violation
messages joined by a comma and a space, zero solutions found and an empty
solution list. -/
theorem c8_validation_error_result (t : ℚ) (ex av : List ℚ) (price : ℚ → ℚ) (size : ℚ)
    (maxSolutions : ℕ) (sb uo : Bool)
    (hinvalid : (validateInputs t ex av size).valid = false)
    (hnofast : ¬(ex.length = 0 ∧ uo = true ∧ 80 ≤ t ∧ t ≤ 92 ∧ 50 < av.length) ∨
      (findOptimalSolutions t av price maxSolutions).solutionsFound = 0) :
    findSquadSolutions t ex av price size maxSolutions sb uo =
      { error := some (String.intercalate ", " (validateInputs t ex av size).errors),
        solutionsFound := 0, solutions := [] } := by
  unfold findSquadSolutions
  simp only []
  by_cases hfast : ex.length = 0 ∧ uo = true ∧ 80 ≤ t ∧ t ≤ 92 ∧ 50 < av.length
  · rw [if_pos hfast]
    rcases hnofast with hn | hzero
    · exact absurd hfast hn
    · rw [hzero, if_neg (lt_irrefl 0), if_neg (by simp [hinvalid])]
  · rw [if_neg hfast, if_neg (by simp [hinvalid])]

/-- C8 witness: an out-of-range target and squad size with no fast path. -/
theorem c8_validation_error_result_app :
    findSquadSolutions 100 [] [] price0 0 10 true true =
      { error := some (String.intercalate ", " (validateInputs 100 [] [] 0).errors),
        solutionsFound := 0, solutions := [] } :=
  c8_validation_error_result 100 [] [] price0 0 10 true true
    (by with_unfolding_all decide)
    (Or.inl (by with_unfolding_all decide))

/-! ### C5 and C6: properties of the exhaustive path -/

instance : IsTrans Solution priceLe where
  trans a b c hab hbc := by
    rcases hab with h1 | ⟨h1, h2⟩ <;> rcases hbc with h3 | ⟨h3, h4⟩
    · exact Or.inl (h1.trans h3)
    · exact Or.inl (lt_of_lt_of_le h1 (le_of_eq h3))
    · exact Or.inl (lt_of_le_of_lt (le_of_eq h1) h3)
    · exact Or.inr ⟨h1.trans h3, h2.trans h4⟩

instance : IsTotal Solution priceLe where
  total a b := by
    rcases lt_trichotomy a.price b.price with h | h | h
    · exact Or.inl (Or.inl h)
    · rcases le_total a.totalRatingPoints b.totalRatingPoints with h2 | h2
      · exact Or.inl (Or.inr ⟨h, h2⟩)
      · exact Or.inr (Or.inr ⟨h.symm, h2⟩)
    · exact Or.inr (Or.inl h)

instance : IsTrans Solution pointsLe where
  trans a b c hab hbc := by
    rcases hab with h1 | ⟨h1, h2⟩ <;> rcases hbc with h3 | ⟨h3, h4⟩
    · exact Or.inl (h1.trans h3)
    · exact Or.inl (lt_of_lt_of_le h1 (le_of_eq h3))
    · exact Or.inl (lt_of_le_of_lt (le_of_eq h1) h3)
    · exact Or.inr ⟨h1.trans h3, h2.trans h4⟩

instance : IsTotal Solution pointsLe where
  total a b := by
    rcases lt_trichotomy a.totalRatingPoints b.totalRatingPoints with h | h | h
    · exact Or.inl (Or.inl h)
    · rcases le_total a.price b.price with h2 | h2
      · exact Or.inl (Or.inr ⟨h, h2⟩)
      · exact Or.inr (Or.inr ⟨h.symm, h2⟩)
    · exact Or.inr (Or.inl h)

/-- C5 counterexample: with `maxSolutions = 0` the truncation guard
`if (MAX_SOLUTIONS_TO_TAKE && MAX_SOLUTIONS_TO_TAKE > 0)` is falsy, so no
truncation happens: a solvable input returns 1 solution, exceeding
`maxSolutions = 0`. -/
theorem c5_truncation_skipped_at_zero :
    (findSquadSolutions 99 (List.replicate 10 99) [99] price0 11 0 true true).solutionsFound = 1 ∧
    ¬ ((findSquadSolutions 99 (List.replicate 10 99) [99] price0 11 0 true
        true).solutions.length ≤ 0) := by
  refine ⟨?_, ?_⟩ <;> with_unfolding_all decide

/-- C5 amended: the exhaustive path's returned solutions are sorted ascending by
price with ties broken ascending by total rating points when `sortByPrice` is
true, and ascending by total rating points with ties broken ascending by price
when it is false; and whenever `maxSolutions > 0` (the code skips truncation at
0) the number of returned solutions does not exceed `maxSolutions`. -/
theorem c5_sorted_and_truncated (t : ℚ) (ex avail : List ℚ) (price : ℚ → ℚ) (size : ℚ)
    (maxSolutions : ℕ) (sb : Bool) :
    (sb = true →
      (calculateSquadSolutions t ex avail price size maxSolutions sb).solutions.Pairwise
        priceLe) ∧
    (sb = false →
      (calculateSquadSolutions t ex avail price size maxSolutions sb).solutions.Pairwise
        pointsLe) ∧
    (0 < maxSolutions →
      (calculateSquadSolutions t ex avail price size maxSolutions sb).solutions.length ≤
        maxSolutions) := by
  unfold calculateSquadSolutions
  simp only []
  by_cases h1 : t > 99 ∨ t < 45
  · rw [if_pos h1]
    exact ⟨fun _ => by simp, fun _ => by simp, fun _ => by simp⟩
  rw [if_neg h1]
  by_cases h2 : size - (ex.length : ℚ) ≤ 0
  · rw [if_pos h2]
    by_cases h3 : ((getRating ex : ℤ) : ℚ) ≥ t
    · rw [if_pos h3]
      refine ⟨fun _ => by simp, fun _ => by simp, fun hm => ?_⟩
      simpa using hm
    · rw [if_neg h3]
      exact ⟨fun _ => by simp, fun _ => by simp, fun _ => by simp⟩
  · rw [if_neg h2]
    simp only []
    refine ⟨?_, ?_, ?_⟩
    · intro hsb
      subst hsb
      simp only [if_pos rfl]
      by_cases hm : 0 < maxSolutions
      · rw [if_pos hm]
        exact (List.sorted_insertionSort priceLe _).sublist (List.take_sublist _ _)
      · rw [if_neg hm]
        exact List.sorted_insertionSort priceLe _
    · intro hsb
      subst hsb
      rw [if_neg (by simp : ¬(false = true))]
      by_cases hm : 0 < maxSolutions
      · rw [if_pos hm]
        exact (List.sorted_insertionSort pointsLe _).sublist (List.take_sublist _ _)
      · rw [if_neg hm]
        exact List.sorted_insertionSort pointsLe _
    · intro hm
      rw [if_pos hm]
      simp only [List.length_take]
      omega

/-- C5 witness: the sortedness and the bound applied to a concrete solve. -/
theorem c5_sorted_and_truncated_app :
    (calculateSquadSolutions 99 (List.replicate 10 99) [99] price0 11 3 true).solutions.length ≤
      3 :=
  (c5_sorted_and_truncated 99 (List.replicate 10 99) [99] price0 11 3 true).2.2 (by decide)

/-- C6: every solution returned by the exhaustive path
(`calculateSquadSolutions`, to which `findSquadSolutions` delegates) needs no more
copies of any rating than the inventory `ratingsToTry` holds: for every rating in
the recorded fill combination, its multiplicity there is at most its multiplicity
in the inventory. -/
theorem c6_solutions_feasible (t : ℚ) (ex avail : List ℚ) (price : ℚ → ℚ) (size : ℚ)
    (maxSolutions : ℕ) (sb : Bool) :
    ∀ s ∈ (calculateSquadSolutions t ex avail price size maxSolutions sb).solutions,
      ∀ r ∈ s.combinationUsed, s.combinationUsed.count r ≤ avail.count r := by
  intro s hs r hr
  unfold calculateSquadSolutions at hs
  simp only [] at hs
  by_cases h1 : t > 99 ∨ t < 45
  · rw [if_pos h1] at hs
    simp at hs
  rw [if_neg h1] at hs
  by_cases h2 : size - (ex.length : ℚ) ≤ 0
  · rw [if_pos h2] at hs
    by_cases h3 : ((getRating ex : ℤ) : ℚ) ≥ t
    · rw [if_pos h3] at hs
      simp only [List.mem_singleton] at hs
      subst hs
      simp at hr
    · rw [if_neg h3] at hs
      simp at hs
  · rw [if_neg h2] at hs
    simp only [] at hs
    have hs2 : s ∈ (getMultisubsets avail (size - (ex.length : ℚ))).filterMap
        (fun combination =>
          if (combination.all fun x =>
              decide (combination.count x ≤ countRatings avail x)) = true then
            if ((getRating (ex ++ combination) : ℤ) : ℚ) < t then none
            else
              some { price := getPrice combination price,
                     squad := (jsObjectKeys combination).map
                       (fun x => (x, combination.count x)),
                     actualRating := ((getRating (ex ++ combination) : ℤ) : ℚ),
                     totalRatingPoints := (ex ++ combination).foldl (· + ·) 0,
                     efficiency := (ex ++ combination).foldl (· + ·) 0 /
                       max ((getRating (ex ++ combination) : ℤ) : ℚ) 1,
                     combinationUsed := combination }
          else none) := by
      by_cases hm : 0 < maxSolutions
      · rw [if_pos hm] at hs
        replace hs := List.mem_of_mem_take hs
        by_cases hb : sb = true
        · rwa [if_pos hb, (List.perm_insertionSort priceLe _).mem_iff] at hs
        · rwa [if_neg hb, (List.perm_insertionSort pointsLe _).mem_iff] at hs
      · rw [if_neg hm] at hs
        by_cases hb : sb = true
        · rwa [if_pos hb, (List.perm_insertionSort priceLe _).mem_iff] at hs
        · rwa [if_neg hb, (List.perm_insertionSort pointsLe _).mem_iff] at hs
    rw [List.mem_filterMap] at hs2
    obtain ⟨comb, _, hF⟩ := hs2
    by_cases hE : (comb.all fun x => decide (comb.count x ≤ countRatings avail x)) = true
    · rw [if_pos hE] at hF
      by_cases hR : ((getRating (ex ++ comb) : ℤ) : ℚ) < t
      · rw [if_pos hR] at hF
        cases hF
      · rw [if_neg hR] at hF
        have hsEq := Option.some.inj hF
        subst hsEq
        simp only [] at hr ⊢
        rw [List.all_eq_true] at hE
        have hcount := hE r hr
        rw [decide_eq_true_iff] at hcount
        exact hcount
    · rw [if_neg hE] at hF
      cases hF

/-- C6 witness: feasibility applied to the concrete solution of a small solve. -/
theorem c6_solutions_feasible_app :
    ({ price := 0, squad := [((99 : ℚ), 1)], actualRating := 99, totalRatingPoints := 1089,
       efficiency := 11, combinationUsed := [99] } : Solution).combinationUsed.count 99 ≤
      ([99] : List ℚ).count 99 :=
  c6_solutions_feasible 99 (List.replicate 10 99) [99] price0 11 5 true
    { price := 0, squad := [((99 : ℚ), 1)], actualRating := 99, totalRatingPoints := 1089,
      efficiency := 11, combinationUsed := [99] }
    (by with_unfolding_all decide) 99 (by with_unfolding_all decide)

/-! ### C4: the multiset enumerator -/

lemma list_range_map_sum (g : ℕ → ℕ) : ∀ (m : ℕ),
    ((List.range m).map g).sum = ∑ i ∈ Finset.range m, g i
  | 0 => by simp
  | m + 1 => by
    rw [List.range_succ, List.map_append, List.sum_append, Finset.sum_range_succ,
      list_range_map_sum g m]
    simp

lemma sum_choose_sub_one (r : ℕ) : ∀ (n : ℕ),
    ∑ j ∈ Finset.range (n + 1), (r + j - 1).choose j = (r + n).choose n
  | 0 => by simp
  | n + 1 => by
    rw [Finset.sum_range_succ, sum_choose_sub_one r n]
    have h1 : r + (n + 1) - 1 = r + n := by omega
    have h2 : r + (n + 1) = (r + n) + 1 := by omega
    rw [h1, h2, Nat.choose_succ_succ]

lemma multisubsetsN_length {α : Type} : ∀ (a : List α) (k : ℕ),
    (multisubsetsN a k).length = (a.length + k - 1).choose k
  | [], k => by
    cases k with
    | zero => simp [multisubsetsN]
    | succ n =>
      simp only [multisubsetsN, if_neg (Nat.succ_ne_zero n)]
      simp only [List.length_nil]
      rw [show 0 + (n + 1) - 1 = n from by omega,
        Nat.choose_eq_zero_of_lt (by omega : n < n + 1)]
  | x :: rest, k => by
    cases k with
    | zero => simp [multisubsetsN]
    | succ n =>
      simp only [multisubsetsN, if_neg (Nat.succ_ne_zero n)]
      rw [List.length_flatMap]
      have hcong : (List.range (n + 2)).map
            (List.length ∘ fun i => prependNTimes x (multisubsetsN rest (n + 1 - i)) i)
          = (List.range (n + 2)).map
            (fun i => (rest.length + (n + 2 - 1 - i) - 1).choose (n + 2 - 1 - i)) := by
        apply List.map_congr_left
        intro i _
        simp only [Function.comp, prependNTimes, List.length_map]
        rw [multisubsetsN_length rest (n + 1 - i)]
        have h : n + 1 - i = n + 2 - 1 - i := by omega
        rw [h]
      rw [hcong, list_range_map_sum,
        Finset.sum_range_reflect (fun j => (rest.length + j - 1).choose j) (n + 2),
        sum_choose_sub_one rest.length (n + 1)]
      have h2 : (x :: rest).length + (n + 1) - 1 = rest.length + (n + 1) := by
        simp only [List.length_cons]
        omega
      rw [h2]

lemma multisubsetsN_length_mem {α : Type} : ∀ (a : List α) (k : ℕ) (l : List α),
    l ∈ multisubsetsN a k → l.length = k
  | [], k, l => by
    cases k with
    | zero =>
      intro h
      rw [show multisubsetsN ([] : List α) 0 = [[]] from rfl, List.mem_singleton] at h
      subst h
      rfl
    | succ n =>
      intro h
      simp [multisubsetsN] at h
  | x :: rest, k, l => by
    cases k with
    | zero =>
      intro h
      rw [show multisubsetsN (x :: rest) 0 = [[]] from rfl, List.mem_singleton] at h
      subst h
      rfl
    | succ n =>
      intro h
      simp only [multisubsetsN, if_neg (Nat.succ_ne_zero n)] at h
      rw [List.mem_flatMap] at h
      obtain ⟨i, hi, hmem⟩ := h
      rw [List.mem_range] at hi
      unfold prependNTimes at hmem
      rw [List.mem_map] at hmem
      obtain ⟨tail, htail, rfl⟩ := hmem
      have ht := multisubsetsN_length_mem rest (n + 1 - i) tail htail
      rw [List.length_append, List.length_replicate, ht]
      omega

lemma multisubsetsN_mem_subset {α : Type} : ∀ (a : List α) (k : ℕ) (l : List α),
    l ∈ multisubsetsN a k → ∀ y ∈ l, y ∈ a
  | [], k, l => by
    cases k with
    | zero =>
      intro h
      rw [show multisubsetsN ([] : List α) 0 = [[]] from rfl, List.mem_singleton] at h
      subst h
      intro y hy
      simp at hy
    | succ n =>
      intro h
      simp [multisubsetsN] at h
  | x :: rest, k, l => by
    cases k with
    | zero =>
      intro h
      rw [show multisubsetsN (x :: rest) 0 = [[]] from rfl, List.mem_singleton] at h
      subst h
      intro y hy
      simp at hy
    | succ n =>
      intro h
      simp only [multisubsetsN, if_neg (Nat.succ_ne_zero n)] at h
      rw [List.mem_flatMap] at h
      obtain ⟨i, _, hmem⟩ := h
      unfold prependNTimes at hmem
      rw [List.mem_map] at hmem
      obtain ⟨tail, htail, rfl⟩ := hmem
      intro y hy
      rw [List.mem_append] at hy
      rcases hy with hy | hy
      · rw [List.eq_of_mem_replicate hy]
        exact List.mem_cons_self x rest
      · exact List.mem_cons_of_mem x
          (multisubsetsN_mem_subset rest (n + 1 - i) tail htail y hy)

lemma multisubsetsN_nodup {α : Type} [DecidableEq α] : ∀ (a : List α), a.Nodup → ∀ (k : ℕ),
    ((multisubsetsN a k).map (fun l : List α => (l : Multiset α))).Nodup
  | [], _, k => by
    cases k with
    | zero => simp [multisubsetsN]
    | succ n => simp [multisubsetsN]
  | x :: rest, ha, k => by
    cases k with
    | zero => simp [multisubsetsN]
    | succ n =>
      have hx : x ∉ rest := (List.nodup_cons.mp ha).1
      have hrest : rest.Nodup := (List.nodup_cons.mp ha).2
      simp only [multisubsetsN, if_neg (Nat.succ_ne_zero n)]
      rw [List.map_flatMap, List.nodup_flatMap]
      constructor
      · intro i _
        unfold prependNTimes
        rw [List.map_map]
        have hcomp : ((fun l : List α => (l : Multiset α)) ∘
              fun xs => List.replicate i x ++ xs)
            = ((fun m : Multiset α => Multiset.replicate i x + m) ∘
              fun l : List α => (l : Multiset α)) := by
          funext l
          rfl
        rw [hcomp, ← List.map_map]
        exact (multisubsetsN_nodup rest hrest (n + 1 - i)).map
          (fun m1 m2 hm => by simpa using hm)
      · have key : ∀ i, ∀ s ∈ (prependNTimes x (multisubsetsN rest (n + 1 - i)) i).map
            (fun l : List α => (l : Multiset α)), Multiset.count x s = i := by
          intro i s hsmem
          rw [List.mem_map] at hsmem
          obtain ⟨l, hl, rfl⟩ := hsmem
          unfold prependNTimes at hl
          rw [List.mem_map] at hl
          obtain ⟨tail, htail, rfl⟩ := hl
          have hxt : x ∉ tail := fun hmemt =>
            hx (multisubsetsN_mem_subset rest (n + 1 - i) tail htail x hmemt)
          rw [Multiset.coe_count, List.count_append, List.count_replicate_self,
            List.count_eq_zero_of_not_mem hxt]
          omega
        refine List.Pairwise.imp ?_ (List.pairwise_lt_range (n + 2))
        intro i j hij
        intro s hsi hsj
        have h1 := key i s hsi
        have h2 := key j s hsj
        omega

lemma multisubsetsImpl_natCast {α : Type} : ∀ (set : List α) (k : ℕ),
    multisubsetsImpl set (k : ℚ) = multisubsetsN set k
  | [], k => by
    by_cases h : k = 0
    · subst h
      simp [multisubsetsImpl, multisubsetsN]
    · simp only [multisubsetsImpl, multisubsetsN]
      rw [if_neg (by exact_mod_cast h), if_neg h]
  | x :: rest, k => by
    by_cases h : k = 0
    · subst h
      simp [multisubsetsImpl, multisubsetsN]
    · simp only [multisubsetsImpl, multisubsetsN]
      rw [if_neg (show ¬((k : ℚ) = 0) by exact_mod_cast h), if_neg h]
      have hiter : iterCount (k : ℚ) = k + 1 := by
        unfold iterCount
        rw [if_neg (not_lt.mpr (by exact_mod_cast Nat.zero_le k)), Int.floor_natCast]
        simp
      rw [hiter]
      apply List.flatMap_congr
      intro i hi
      rw [List.mem_range] at hi
      have hcast : (k : ℚ) - (i : ℚ) = ((k - i : ℕ) : ℚ) := by
        rw [Nat.cast_sub (by omega : i ≤ k)]
      rw [hcast, multisubsetsImpl_natCast rest (k - i)]

/-- C4: for every duplicate-free alphabet `a` and every natural size `k`, the
enumerator `getMultisubsets a k` yields exactly `C(|a| + k - 1, k)` sequences, each
of length exactly `k`, pairwise distinct as multisets; size 0 yields exactly the
empty sequence, and an empty alphabet with positive size yields nothing. -/
theorem c4_multisubsets_props {α : Type} [DecidableEq α] (a : List α) (ha : a.Nodup)
    (k : ℕ) :
    (getMultisubsets a (k : ℚ)).length = (a.length + k - 1).choose k ∧
    (∀ l ∈ getMultisubsets a (k : ℚ), l.length = k) ∧
    ((getMultisubsets a (k : ℚ)).map (fun l : List α => (l : Multiset α))).Nodup ∧
    getMultisubsets a ((0 : ℕ) : ℚ) = [[]] ∧
    (0 < k → getMultisubsets ([] : List α) (k : ℚ) = []) := by
  refine ⟨?_, ?_, ?_, ?_, ?_⟩
  · rw [getMultisubsets, multisubsetsImpl_natCast]
    exact multisubsetsN_length a k
  · intro l hl
    rw [getMultisubsets, multisubsetsImpl_natCast] at hl
    exact multisubsetsN_length_mem a k l hl
  · rw [getMultisubsets, multisubsetsImpl_natCast]
    exact multisubsetsN_nodup a ha k
  · rw [getMultisubsets, multisubsetsImpl_natCast]
    cases a <;> simp [multisubsetsN]
  · intro hk
    rw [getMultisubsets, multisubsetsImpl_natCast]
    simp only [multisubsetsN]
    rw [if_neg (by omega : ¬(k = 0))]

/-- C4 witness: the enumerator's guarantees applied to the alphabet `[1, 2, 3]`
and size 2 (yield count `C(4, 2) = 6`). -/
theorem c4_multisubsets_props_app :
    (getMultisubsets ([1, 2, 3] : List ℚ) ((2 : ℕ) : ℚ)).length =
      (([1, 2, 3] : List ℚ).length + 2 - 1).choose 2 :=
  (c4_multisubsets_props ([1, 2, 3] : List ℚ) (by with_unfolding_all decide) 2).1

end SBC
